import Mathlib

/-!
Shallow embedding of the ranking-and-clustering core of the argument-retrieval
baselines repository (`src/arclus/models/baselines.py` and
`src/arclus/get_similar.py`), together with theorems settling the frozen
claims about it.

Representations are modelled as lists of rationals, the pre-computed
representation stores as partial maps (`Option`-valued functions), fallible
code (Python `KeyError`, `torch.topk` out-of-range errors, `NotImplementedError`)
as `Except`-valued functions, and the external k-means collaborator as an
explicit function argument producing per-point labels and centroids.
-/

namespace Arclus

/-- A dense vector representation of a claim or premise. -/
abbrev Vec := List ℚ

/-- Errors raised by the ranking methods: Python `KeyError` on the premise
store (string keys) or the claim store (integer keys), the `RuntimeError`
raised by `torch.topk` when asked for more elements than exist, and the
`NotImplementedError` raised on an unsupported cluster-representative mode. -/
inductive Err : Type
  | keyNotFound (key : String)
  | claimNotFound (id : ℤ)
  | topkOutOfRange
  | notImplemented (mode : String)
deriving DecidableEq, Repr

/-- Descending comparison by a rational-valued key; `descKey key a b` holds
when `a`'s key is at least `b`'s key. -/
def descKey (key : α → ℚ) (a b : α) : Prop := key b ≤ key a

instance (key : α → ℚ) : DecidableRel (descKey key) :=
  fun a b => inferInstanceAs (Decidable (key b ≤ key a))

instance (key : α → ℚ) : IsTotal α (descKey key) :=
  ⟨fun a b => le_total (key b) (key a)⟩

instance (key : α → ℚ) : IsTrans α (descKey key) :=
  ⟨fun _ _ _ h1 h2 => le_trans h2 h1⟩

/-- Stable descending sort by a key, modelling Python's
`sorted(l, key=key, reverse=True)` (CPython's sort is stable; among equal
keys the earlier element stays first). -/
def sortDescBy (key : α → ℚ) (l : List α) : List α :=
  List.insertionSort (descKey key) l

/-- Indices of the `k` largest entries of a score list in descending score
order, modelling `tensor.topk(k=k, largest=True, sorted=True).indices` for a
single row; like `torch.topk`, it fails when `k` exceeds the number of
entries. -/
def topkIndices (scores : List ℚ) (k : ℕ) : Except Err (List ℕ) :=
  if k ≤ scores.length then
    .ok ((sortDescBy (fun i => scores.getD i 0) (List.range scores.length)).take k)
  else .error .topkOutOfRange

/-- Tail of the argmax computation: fold over the remaining scores, keeping
the index of the first maximal value seen so far. -/
def argmaxGo : List ℚ → ℚ → ℕ → ℕ → ℕ
  | [], _, best, _ => best
  | y :: ys, cur, best, idx =>
    if cur < y then argmaxGo ys y idx (idx + 1) else argmaxGo ys cur best (idx + 1)

/-- Index of the first maximal entry of a score list, modelling
`tensor.argmax` on a single row. -/
def argmaxIdx : List ℚ → ℕ
  | [] => 0
  | x :: xs => argmaxGo xs x 0 1

/-- Look up every identifier in a store, failing with `KeyError` on the first
missing one; models `[store[i] for i in ids]` on a Python mapping. -/
def lookupAll (store : String → Option α) : List String → Except Err (List α)
  | [] => .ok []
  | i :: is =>
    match store i with
    | none => .error (.keyNotFound i)
    | some v =>
      match lookupAll store is with
      | .error e => .error e
      | .ok vs => .ok (v :: vs)

/-- Map a fallible function over a list, failing on the first error. -/
def exceptMapList (f : α → Except Err β) : List α → Except Err (List β)
  | [] => .ok []
  | a :: as =>
    match f a with
    | .error e => .error e
    | .ok b =>
      match exceptMapList f as with
      | .error e => .error e
      | .ok bs => .ok (b :: bs)

/-- Map an `Option`-valued function over a list, failing if any entry fails. -/
def optionMapList (f : α → Option β) : List α → Option (List β)
  | [] => some []
  | a :: as =>
    match f a, optionMapList f as with
    | some b, some bs => some (b :: bs)
    | _, _ => none

/-- Python's `round` on an exact rational value: round half to even. -/
def pyRound (q : ℚ) : ℤ :=
  if q - ⌊q⌋ < 1 / 2 then ⌊q⌋
  else if 1 / 2 < q - ⌊q⌋ then ⌊q⌋ + 1
  else if 2 ∣ ⌊q⌋ then ⌊q⌋ else ⌊q⌋ + 1

/-- The cluster count used by the cluster-based methods, translating
`_num_clusters`: `int(round(rho * num_premises))`, raised to at least `k`,
then capped at `num_premises`. -/
def numClusters (rho : ℚ) (num_premises k : ℕ) : ℤ :=
  min (max (pyRound (rho * num_premises)) (k : ℤ)) (num_premises : ℤ)

/-- The external k-means collaborator: given a cluster count and the premise
representations, it returns per-point integer cluster labels and the centroid
vectors.  A fixed random seed makes it a deterministic function, which is how
it is modelled here. -/
abbrev KMeansFn := ℕ → List Vec → List ℕ × List Vec

/-- `ZeroShotKNN`: similarity function plus pre-computed claim / premise
representation stores. -/
structure ZeroShotKNN where
  similarity : Vec → Vec → ℚ
  claims : ℤ → Option Vec
  premises : String → Option Vec

/-- `ZeroShotKNN.rank`: look up the claim and premise representations,
score every premise against the claim, take the top-`k` indices and map them
back to premise identifiers. -/
def ZeroShotKNN.rank (m : ZeroShotKNN) (claim_id : ℤ) (premise_ids : List String)
    (k : ℕ) : Except Err (List String) :=
  match m.claims claim_id with
  | none => .error (.claimNotFound claim_id)
  | some claim_repr =>
    match lookupAll m.premises premise_ids with
    | .error e => .error e
    | .ok premise_repr =>
      match topkIndices (premise_repr.map (m.similarity claim_repr)) k with
      | .error e => .error e
      | .ok top_ids => .ok (top_ids.map (fun i => premise_ids.getD i ""))

/-- `ZeroShotClusterKNN`: similarity function, representation stores, the
cluster ratio and the cluster-representative mode string. -/
structure ZeroShotClusterKNN where
  similarity : Vec → Vec → ℚ
  claims : ℤ → Option Vec
  premises : String → Option Vec
  rho : ℚ
  cluster_representative : String

/-- The constructor of `ZeroShotClusterKNN` stores the mode string without
validating it. -/
def mkZeroShotClusterKNN (similarity : Vec → Vec → ℚ) (claims : ℤ → Option Vec)
    (premises : String → Option Vec) (rho : ℚ) (cluster_representative : String) :
    ZeroShotClusterKNN :=
  ⟨similarity, claims, premises, rho, cluster_representative⟩

/-- The local premise indices assigned to cluster `i`, modelling
`local_premise_ids[assignment == i]`. -/
def maskIndices (assignment : List ℕ) (i : ℕ) : List ℕ :=
  (List.range assignment.length).filter (fun j => assignment.getD j 0 == i)

/-- One iteration of `_get_cluster_representatives`: check the mode string
(raising `NotImplementedError` on an unknown one), skip empty clusters
(represented by `-1`), and otherwise pick the in-cluster premise most similar
to the anchor (centroid or claim). -/
def reprForCluster (simFn : Vec → Vec → ℚ) (mode : String) (claim_repr : Vec)
    (premise_repr : List Vec) (assignment : List ℕ) (centroids : List Vec)
    (i : ℕ) : Except Err ℤ :=
  match
    (if mode = "closest-to-center" then .ok (centroids.getD i [])
     else if mode = "closest-to-claim" then .ok claim_repr
     else .error (.notImplemented mode) : Except Err Vec) with
  | .error e => .error e
  | .ok anchor =>
    let mask := maskIndices assignment i
    if mask.isEmpty then .ok (-1)
    else
      let scores := mask.map (fun j => simFn anchor (premise_repr.getD j []))
      .ok ((mask.getD (argmaxIdx scores) 0 : ℕ) : ℤ)

/-- `_get_cluster_representatives`: for each of the `centroids.length`
clusters, the representative local premise index, or `-1` for an empty
cluster. -/
def getClusterRepresentatives (simFn : Vec → Vec → ℚ) (mode : String)
    (claim_repr : Vec) (premise_repr : List Vec) (assignment : List ℕ)
    (centroids : List Vec) : Except Err (List ℤ) :=
  exceptMapList (reprForCluster simFn mode claim_repr premise_repr assignment centroids)
    (List.range centroids.length)

/-- The tail of `ZeroShotClusterKNN.rank` after representatives are chosen:
keep non-empty clusters, score their representatives against the claim, take
the top-`k`, and translate back to premise identifiers. -/
def rankFromRepresentatives (simFn : Vec → Vec → ℚ) (claim_repr : Vec)
    (premise_repr : List Vec) (premise_ids : List String) (k : ℕ)
    (cluster_repr_id : List ℤ) : Except Err (List String) :=
  let non_empty := cluster_repr_id.filter (fun x => decide (0 ≤ x))
  match topkIndices (non_empty.map (fun j => simFn claim_repr (premise_repr.getD j.toNat []))) k with
  | .error e => .error e
  | .ok top_cluster_id =>
    .ok ((top_cluster_id.map (fun i => non_empty.getD i 0)).map
      (fun j => premise_ids.getD j.toNat ""))

/-- `ZeroShotClusterKNN.rank`: look up representations, cluster the premises
with the external k-means collaborator, choose one representative per
non-empty cluster, and rank the representatives against the claim. -/
def ZeroShotClusterKNN.rank (m : ZeroShotClusterKNN) (kmeans : KMeansFn)
    (claim_id : ℤ) (premise_ids : List String) (k : ℕ) :
    Except Err (List String) :=
  match m.claims claim_id with
  | none => .error (.claimNotFound claim_id)
  | some claim_repr =>
    match lookupAll m.premises premise_ids with
    | .error e => .error e
    | .ok premise_repr =>
      let ac := kmeans (numClusters m.rho premise_ids.length k).toNat premise_repr
      match getClusterRepresentatives m.similarity m.cluster_representative
        claim_repr premise_repr ac.1 ac.2 with
      | .error e => .error e
      | .ok cluster_repr_id =>
        rankFromRepresentatives m.similarity claim_repr premise_repr premise_ids k
          cluster_repr_id

/-- `LearnedSimilarityKNN`: precomputed premise-ID-keyed similarity scores. -/
structure LearnedSimilarityKNN where
  precomputed_similarities : String → Option ℚ

/-- `LearnedSimilarityKNN.rank`: sort the premise identifiers by descending
precomputed score (the `claim_id` argument is not used by the lookup) and
truncate to the first `k`. -/
def LearnedSimilarityKNN.rank (m : LearnedSimilarityKNN) (claim_id : ℤ)
    (premise_ids : List String) (k : ℕ) : Except Err (List String) :=
  match lookupAll m.precomputed_similarities premise_ids with
  | .error e => .error e
  | .ok _ =>
    .ok ((sortDescBy (fun pid => (m.precomputed_similarities pid).getD 0) premise_ids).take k)

/-- `LearnedSimilarityClusterKNN`: precomputed scores, cluster ratio, and the
premise representation store used for clustering. -/
structure LearnedSimilarityClusterKNN where
  precomputed_similarities : String → Option ℚ
  rho : ℚ
  premises : String → Option Vec

/-- The greedy per-cluster selection loop of `LearnedSimilarityClusterKNN.rank`:
iterate local premise indices in descending score order, keeping the first
premise seen for each distinct cluster label. -/
def greedyClusterSelect (assignment : List ℕ) (premise_ids : List String) :
    List ℕ → List ℕ → List String
  | [], _ => []
  | i :: rest, seen =>
    let c := assignment.getD i 0
    if c ∈ seen then greedyClusterSelect assignment premise_ids rest (c :: seen)
    else premise_ids.getD i "" :: greedyClusterSelect assignment premise_ids rest (c :: seen)

/-- `LearnedSimilarityClusterKNN.rank`: look up premise representations,
cluster them, iterate premises by descending precomputed score keeping one
per cluster, and truncate to `k`. -/
def LearnedSimilarityClusterKNN.rank (m : LearnedSimilarityClusterKNN)
    (kmeans : KMeansFn) (claim_id : ℤ) (premise_ids : List String) (k : ℕ) :
    Except Err (List String) :=
  match lookupAll m.premises premise_ids with
  | .error e => .error e
  | .ok premise_repr =>
    let assignment := (kmeans (numClusters m.rho premise_ids.length k).toNat premise_repr).1
    match lookupAll m.precomputed_similarities premise_ids with
    | .error e => .error e
    | .ok _ =>
      let order := sortDescBy
        (fun i => (m.precomputed_similarities (premise_ids.getD i "")).getD 0)
        (List.range premise_ids.length)
      .ok ((greedyClusterSelect assignment premise_ids order []).take k)

/-! ### Helper lemmas about the embedding's building blocks -/

theorem getD_mem {l : List α} {i : ℕ} (h : i < l.length) (d : α) : l.getD i d ∈ l := by
  rw [List.getD_eq_getElem l d h]
  exact List.getElem_mem h

theorem getD_map_of_lt {l : List α} (f : α → β) {i : ℕ} (h : i < l.length) (d : β)
    (d2 : α) : (l.map f).getD i d = f (l.getD i d2) := by
  have h2 : i < (l.map f).length := by simpa using h
  rw [List.getD_eq_getElem _ _ h2, List.getD_eq_getElem _ _ h, List.getElem_map]

theorem getD_range_of_lt {n i : ℕ} (h : i < n) (d : ℕ) : (List.range n).getD i d = i := by
  have h2 : i < (List.range n).length := by simpa using h
  rw [List.getD_eq_getElem _ _ h2, List.getElem_range]

theorem getD_zipWith_of_lt {f : α → β → γ} {l1 : List α} {l2 : List β} {i : ℕ}
    (h1 : i < l1.length) (h2 : i < l2.length) (d : γ) (d1 : α) (d2 : β) :
    (List.zipWith f l1 l2).getD i d = f (l1.getD i d1) (l2.getD i d2) := by
  have hz : i < (List.zipWith f l1 l2).length := by
    rw [List.length_zipWith]
    exact lt_min h1 h2
  rw [List.getD_eq_getElem _ _ hz, List.getD_eq_getElem _ _ h1,
    List.getD_eq_getElem _ _ h2, List.getElem_zipWith]

theorem sortDescBy_perm (key : α → ℚ) (l : List α) : (sortDescBy key l).Perm l :=
  List.perm_insertionSort (descKey key) l

theorem sortDescBy_pairwise (key : α → ℚ) (l : List α) :
    (sortDescBy key l).Pairwise (descKey key) :=
  List.sorted_insertionSort (descKey key) l

theorem topkIndices_ok_of_le {scores : List ℚ} {k : ℕ} (h : k ≤ scores.length) :
    topkIndices scores k =
      .ok ((sortDescBy (fun i => scores.getD i 0) (List.range scores.length)).take k) := by
  simp [topkIndices, h]

theorem topkIndices_error_of_gt {scores : List ℚ} {k : ℕ} (h : scores.length < k) :
    topkIndices scores k = .error .topkOutOfRange := by
  simp [topkIndices, Nat.not_le.mpr h]

theorem topkIndices_spec {scores : List ℚ} {k : ℕ} {l : List ℕ}
    (h : topkIndices scores k = .ok l) :
    l.length = min k scores.length ∧ l.Nodup ∧ (∀ i ∈ l, i < scores.length) ∧
      l.Pairwise (fun a b => scores.getD b 0 ≤ scores.getD a 0) := by
  by_cases hk : k ≤ scores.length
  · rw [topkIndices_ok_of_le hk] at h
    have hl : l = (sortDescBy (fun i => scores.getD i 0) (List.range scores.length)).take k :=
      (Except.ok.injEq _ _).mp h.symm
    subst hl
    have hperm := sortDescBy_perm (fun i => scores.getD i 0) (List.range scores.length)
    have hsub := List.take_sublist k
      (sortDescBy (fun i => scores.getD i 0) (List.range scores.length))
    refine ⟨?_, ?_, ?_, ?_⟩
    · rw [List.length_take, hperm.length_eq, List.length_range]
    · exact hsub.nodup (hperm.nodup_iff.mpr (List.nodup_range _))
    · intro i hi
      have : i ∈ List.range scores.length := hperm.mem_iff.mp (hsub.mem hi)
      exact List.mem_range.mp this
    · exact List.Pairwise.sublist hsub
        (sortDescBy_pairwise (fun i => scores.getD i 0) (List.range scores.length))
  · rw [topkIndices_error_of_gt (Nat.not_le.mp hk)] at h
    exact absurd h (by simp)

theorem lookupAll_ok_length {store : String → Option α} :
    ∀ {ids : List String} {vs : List α}, lookupAll store ids = .ok vs →
      vs.length = ids.length := by
  intro ids
  induction ids with
  | nil => intro vs h; simp [lookupAll] at h; simp [← h]
  | cons i is ih =>
    intro vs h
    cases hs : store i with
    | none => simp [lookupAll, hs] at h
    | some v =>
      cases hr : lookupAll store is with
      | error e => simp [lookupAll, hs, hr] at h
      | ok ws =>
        simp only [lookupAll, hs, hr] at h
        cases h
        simp [ih hr]

theorem lookupAll_ok_getD {store : String → Option α} (d : α) :
    ∀ {ids : List String} {vs : List α}, lookupAll store ids = .ok vs →
      ∀ i, i < ids.length → store (ids.getD i "") = some (vs.getD i d) := by
  intro ids
  induction ids with
  | nil => intro vs _ i hi; simp at hi
  | cons a as ih =>
    intro vs h i hi
    cases hs : store a with
    | none => simp [lookupAll, hs] at h
    | some v =>
      cases hr : lookupAll store as with
      | error e => simp [lookupAll, hs, hr] at h
      | ok ws =>
        simp only [lookupAll, hs, hr] at h
        cases h
        cases i with
        | zero => simpa using hs
        | succ j =>
          have hj : j < as.length := by simpa using hi
          simpa using ih hr j hj

theorem lookupAll_error_of_missing {store : String → Option α} :
    ∀ {ids : List String} {pid : String}, pid ∈ ids → store pid = none →
      ∃ q, q ∈ ids ∧ store q = none ∧
        lookupAll store ids = .error (.keyNotFound q) := by
  intro ids
  induction ids with
  | nil => intro pid h; simp at h
  | cons a as ih =>
    intro pid hmem hmiss
    cases hs : store a with
    | none =>
      exact ⟨a, List.mem_cons_self a as, hs, by simp [lookupAll, hs]⟩
    | some v =>
      have hpid : pid ∈ as := by
        rcases List.mem_cons.mp hmem with h | h
        · subst h; rw [hs] at hmiss; exact absurd hmiss (by simp)
        · exact h
      obtain ⟨q, hq1, hq2, hq3⟩ := ih hpid hmiss
      exact ⟨q, List.mem_cons_of_mem a hq1, hq2, by simp [lookupAll, hs, hq3]⟩

theorem exceptMapList_ok_of_forall {f : α → Except Err β} {g : α → β} :
    ∀ {l : List α}, (∀ a ∈ l, f a = .ok (g a)) → exceptMapList f l = .ok (l.map g) := by
  intro l
  induction l with
  | nil => intro _; simp [exceptMapList]
  | cons a as ih =>
    intro h
    have ha := h a (List.mem_cons_self a as)
    have has := ih fun b hb => h b (List.mem_cons_of_mem a hb)
    simp [exceptMapList, ha, has]

theorem exceptMapList_ok_spec {f : α → Except Err β} (da : α) (db : β) :
    ∀ {l : List α} {out : List β}, exceptMapList f l = .ok out →
      out.length = l.length ∧ ∀ i, i < l.length → f (l.getD i da) = .ok (out.getD i db) := by
  intro l
  induction l with
  | nil =>
    intro out h
    simp [exceptMapList] at h
    simp [← h]
  | cons a as ih =>
    intro out h
    cases hf : f a with
    | error e => simp [exceptMapList, hf] at h
    | ok b =>
      cases hr : exceptMapList f as with
      | error e => simp [exceptMapList, hf, hr] at h
      | ok bs =>
        simp only [exceptMapList, hf, hr] at h
        cases h
        obtain ⟨hlen, hget⟩ := ih hr
        refine ⟨by simp [hlen], ?_⟩
        intro i hi
        cases i with
        | zero => simpa using hf
        | succ j =>
          have hj : j < as.length := by simpa using hi
          simpa using hget j hj

theorem exceptMapList_error_head {f : α → Except Err β} {a : α} {l : List α} {e : Err}
    (h : f a = .error e) : exceptMapList f (a :: l) = .error e := by
  simp [exceptMapList, h]

theorem optionMapList_ok_of_forall {f : α → Option β} {g : α → β} :
    ∀ {l : List α}, (∀ a ∈ l, f a = some (g a)) → optionMapList f l = some (l.map g) := by
  intro l
  induction l with
  | nil => intro _; simp [optionMapList]
  | cons a as ih =>
    intro h
    have ha := h a (List.mem_cons_self a as)
    have has := ih fun b hb => h b (List.mem_cons_of_mem a hb)
    simp [optionMapList, ha, has]

theorem argmaxGo_lt : ∀ (ys : List ℚ) (cur : ℚ) (best idx : ℕ), best < idx →
    argmaxGo ys cur best idx < idx + ys.length := by
  intro ys
  induction ys with
  | nil => intro cur best idx h; simpa [argmaxGo] using h
  | cons y ys ih =>
    intro cur best idx h
    by_cases hy : cur < y
    · have := ih y idx (idx + 1) (Nat.lt_succ_self idx)
      simpa [argmaxGo, hy, Nat.add_assoc, Nat.add_comm 1 ys.length] using this
    · have := ih cur best (idx + 1) (Nat.lt_succ_of_lt h)
      simpa [argmaxGo, hy, Nat.add_assoc, Nat.add_comm 1 ys.length] using this

theorem argmaxIdx_lt {l : List ℚ} (h : l ≠ []) : argmaxIdx l < l.length := by
  cases l with
  | nil => exact absurd rfl h
  | cons x xs =>
    have := argmaxGo_lt xs x 0 1 Nat.one_pos
    simpa [argmaxIdx, Nat.add_comm 1 xs.length] using this

theorem lookupAll_ok_of_forall_isSome {store : String → Option α} :
    ∀ {ids : List String}, (∀ i ∈ ids, (store i).isSome) →
      ∃ vs, lookupAll store ids = .ok vs := by
  intro ids
  induction ids with
  | nil => intro _; exact ⟨[], rfl⟩
  | cons a as ih =>
    intro h
    obtain ⟨v, hv⟩ := Option.isSome_iff_exists.mp (h a (List.mem_cons_self a as))
    obtain ⟨vs, hvs⟩ := ih fun b hb => h b (List.mem_cons_of_mem a hb)
    exact ⟨v :: vs, by simp [lookupAll, hv, hvs]⟩

theorem mem_maskIndices {assignment : List ℕ} {i j : ℕ}
    (h : j ∈ maskIndices assignment i) :
    j < assignment.length ∧ assignment.getD j 0 = i := by
  simp only [maskIndices, List.mem_filter, List.mem_range, beq_iff_eq] at h
  exact h

theorem reprCore_ok_cases {simFn : Vec → Vec → ℚ} {anchor : Vec}
    {premise_repr : List Vec} {assignment : List ℕ} {i : ℕ} {v : ℤ}
    (h : (if (maskIndices assignment i).isEmpty then (.ok (-1) : Except Err ℤ)
      else .ok (((maskIndices assignment i).getD
        (argmaxIdx ((maskIndices assignment i).map
          (fun j => simFn anchor (premise_repr.getD j [])))) 0 : ℕ) : ℤ)) = .ok v) :
    v = -1 ∨ (0 ≤ v ∧ v.toNat < assignment.length ∧ assignment.getD v.toNat 0 = i) := by
  cases hm : (maskIndices assignment i).isEmpty with
  | true =>
    simp only [hm, if_true] at h
    cases h
    exact Or.inl rfl
  | false =>
    simp only [hm, Bool.false_eq_true, if_false] at h
    have hne : maskIndices assignment i ≠ [] := by
      intro hc
      rw [hc] at hm
      simp at hm
    have hlt : argmaxIdx ((maskIndices assignment i).map
        (fun j => simFn anchor (premise_repr.getD j []))) <
          (maskIndices assignment i).length := by
      have := argmaxIdx_lt (l := (maskIndices assignment i).map
        (fun j => simFn anchor (premise_repr.getD j []))) (by simp [hne])
      simpa using this
    have hmem := getD_mem hlt 0
    obtain ⟨hjlt, hja⟩ := mem_maskIndices hmem
    cases h
    exact Or.inr ⟨Int.natCast_nonneg _, by simpa using hjlt, by simpa using hja⟩

theorem reprForCluster_ok_cases {simFn : Vec → Vec → ℚ} {mode : String}
    {claim_repr : Vec} {premise_repr : List Vec} {assignment : List ℕ}
    {centroids : List Vec} {i : ℕ} {v : ℤ}
    (h : reprForCluster simFn mode claim_repr premise_repr assignment centroids i = .ok v) :
    v = -1 ∨ (0 ≤ v ∧ v.toNat < assignment.length ∧ assignment.getD v.toNat 0 = i) := by
  rw [reprForCluster] at h
  by_cases h1 : mode = "closest-to-center"
  · simp only [h1, if_true] at h
    exact reprCore_ok_cases h
  · by_cases h2 : mode = "closest-to-claim"
    · simp only [h1, h2, if_true, if_false] at h
      exact reprCore_ok_cases h
    · simp only [h1, h2, if_false] at h
      exact absurd h (by simp)

theorem getClusterRepresentatives_pointwise {simFn : Vec → Vec → ℚ} {mode : String}
    {claim_repr : Vec} {premise_repr : List Vec} {assignment : List ℕ}
    {centroids : List Vec} {cri : List ℤ}
    (h : getClusterRepresentatives simFn mode claim_repr premise_repr assignment
      centroids = .ok cri) :
    cri.length = centroids.length ∧ ∀ i, i < centroids.length →
      reprForCluster simFn mode claim_repr premise_repr assignment centroids i =
        .ok (cri.getD i (-1)) := by
  rw [getClusterRepresentatives] at h
  obtain ⟨hlen, hget⟩ := exceptMapList_ok_spec 0 (-1) h
  refine ⟨by simpa using hlen, ?_⟩
  intro i hi
  have := hget i (by simpa using hi)
  rwa [getD_range_of_lt hi 0] at this

theorem getClusterRepresentatives_mem {simFn : Vec → Vec → ℚ} {mode : String}
    {claim_repr : Vec} {premise_repr : List Vec} {assignment : List ℕ}
    {centroids : List Vec} {cri : List ℤ}
    (h : getClusterRepresentatives simFn mode claim_repr premise_repr assignment
      centroids = .ok cri) :
    ∀ x ∈ cri, x = -1 ∨ (0 ≤ x ∧ x.toNat < assignment.length) := by
  intro x hx
  obtain ⟨hlen, hget⟩ := getClusterRepresentatives_pointwise h
  obtain ⟨i, hi, hxi⟩ := List.getElem_of_mem hx
  have hiv : cri.getD i (-1) = x := by
    rw [List.getD_eq_getElem _ _ hi, hxi]
  have := reprForCluster_ok_cases (hget i (by rw [← hlen]; exact hi))
  rw [hiv] at this
  rcases this with h1 | h1
  · exact Or.inl h1
  · exact Or.inr ⟨h1.1, h1.2.1⟩

theorem getClusterRepresentatives_pairwise {simFn : Vec → Vec → ℚ} {mode : String}
    {claim_repr : Vec} {premise_repr : List Vec} {assignment : List ℕ}
    {centroids : List Vec} {cri : List ℤ}
    (h : getClusterRepresentatives simFn mode claim_repr premise_repr assignment
      centroids = .ok cri) :
    cri.Pairwise (fun a b => 0 ≤ a → 0 ≤ b →
      assignment.getD a.toNat 0 ≠ assignment.getD b.toNat 0) := by
  obtain ⟨hlen, hget⟩ := getClusterRepresentatives_pointwise h
  rw [List.pairwise_iff_getElem]
  intro p q hp hq hpq ha hb
  have hps := reprForCluster_ok_cases (hget p (hlen ▸ hp))
  have hqs := reprForCluster_ok_cases (hget q (hlen ▸ hq))
  rw [List.getD_eq_getElem _ _ hp] at hps
  rw [List.getD_eq_getElem _ _ hq] at hqs
  rcases hps with h1 | h1
  · rw [h1] at ha
    exact absurd ha (by norm_num)
  · rcases hqs with h2 | h2
    · rw [h2] at hb
      exact absurd hb (by norm_num)
    · rw [h1.2.2, h2.2.2]
      exact Nat.ne_of_lt hpq

/-- The cluster label of a returned premise identifier under the cluster
assignment computed for a call: the label at the premise's position in the
candidate list. -/
def clusterLabelOf (assignment : List ℕ) (pids : List String) (pid : String) : ℕ :=
  assignment.getD (List.indexOf pid pids) 0

theorem clusterLabelOf_getD {assignment : List ℕ} {pids : List String} {i : ℕ}
    (hnd : pids.Nodup) (hi : i < pids.length) :
    clusterLabelOf assignment pids (pids.getD i "") = assignment.getD i 0 := by
  rw [clusterLabelOf, List.getD_eq_getElem _ _ hi, List.indexOf_getElem hnd i hi]

theorem rankFromRepresentatives_labels_nodup {simFn : Vec → Vec → ℚ}
    {claim_repr : Vec} {premise_repr : List Vec} {pids : List String} {k : ℕ}
    {cri : List ℤ} {res : List String} {assignment : List ℕ}
    (hnd : pids.Nodup) (hlen : assignment.length = pids.length)
    (hmem : ∀ x ∈ cri, x = -1 ∨ (0 ≤ x ∧ x.toNat < assignment.length))
    (hpw : cri.Pairwise (fun a b => 0 ≤ a → 0 ≤ b →
      assignment.getD a.toNat 0 ≠ assignment.getD b.toNat 0))
    (h : rankFromRepresentatives simFn claim_repr premise_repr pids k cri = .ok res) :
    (res.map (clusterLabelOf assignment pids)).Nodup := by
  rw [rankFromRepresentatives] at h
  set non_empty := cri.filter (fun x => decide (0 ≤ x)) with hne_def
  have hne_mem : ∀ x ∈ non_empty, 0 ≤ x ∧ x.toNat < assignment.length := by
    intro x hx
    rw [hne_def, List.mem_filter] at hx
    have h0 : (0 : ℤ) ≤ x := of_decide_eq_true hx.2
    rcases hmem x hx.1 with h1 | h1
    · rw [h1] at h0
      exact absurd h0 (by norm_num)
    · exact ⟨h0, h1.2⟩
  have hne_pw : non_empty.Pairwise (fun a b =>
      assignment.getD a.toNat 0 ≠ assignment.getD b.toNat 0) := by
    have := List.Pairwise.filter (fun x => decide (0 ≤ x)) hpw
    rw [← hne_def] at this
    refine this.imp_of_mem ?_
    intro a b ha hb hr
    exact hr (hne_mem a ha).1 (hne_mem b hb).1
  cases ht : topkIndices (non_empty.map
      (fun j => simFn claim_repr (premise_repr.getD j.toNat []))) k with
  | error e => rw [ht] at h; exact absurd h (by simp)
  | ok t =>
    rw [ht] at h
    simp only [Except.ok.injEq] at h
    obtain ⟨_, htnd, htmem, _⟩ := topkIndices_spec ht
    have htlen : ∀ i ∈ t, i < non_empty.length := by
      intro i hi
      simpa using htmem i hi
    have hres : res.map (clusterLabelOf assignment pids) =
        t.map (fun i => assignment.getD (non_empty.getD i 0).toNat 0) := by
      rw [← h, List.map_map, List.map_map]
      refine List.map_congr_left ?_
      intro i hi
      have hiv := getD_mem (htlen i hi) (0 : ℤ)
      obtain ⟨h0, hb⟩ := hne_mem _ hiv
      simp only [Function.comp]
      exact clusterLabelOf_getD hnd (hlen ▸ hb)
    rw [hres]
    refine List.Nodup.map_on ?_ htnd
    intro i hi j hj hgij
    by_contra hij
    have hi2 := htlen i hi
    have hj2 := htlen j hj
    have hpairs := List.pairwise_iff_getElem.mp hne_pw
    rcases Nat.lt_or_ge i j with hlt | hge
    · have := hpairs i j hi2 hj2 hlt
      rw [← List.getD_eq_getElem non_empty 0 hi2, ← List.getD_eq_getElem non_empty 0 hj2] at this
      exact this hgij
    · have hlt2 : j < i := Nat.lt_of_le_of_ne hge (fun hx => hij hx.symm)
      have := hpairs j i hj2 hi2 hlt2
      rw [← List.getD_eq_getElem non_empty 0 hj2, ← List.getD_eq_getElem non_empty 0 hi2] at this
      exact this hgij.symm

theorem greedyClusterSelect_spec (assignment : List ℕ) (pids : List String) :
    ∀ (l : List ℕ) (seen : List ℕ),
      ∃ idxs : List ℕ,
        greedyClusterSelect assignment pids l seen =
          idxs.map (fun i => pids.getD i "") ∧
        (∀ i ∈ idxs, i ∈ l) ∧
        (∀ i ∈ idxs, assignment.getD i 0 ∉ seen) ∧
        (idxs.map (fun i => assignment.getD i 0)).Nodup := by
  intro l
  induction l with
  | nil => intro seen; exact ⟨[], rfl, by simp, by simp, by simp⟩
  | cons i rest ih =>
    intro seen
    obtain ⟨idxs, h1, h2, h3, h4⟩ := ih (assignment.getD i 0 :: seen)
    by_cases hc : assignment.getD i 0 ∈ seen
    · refine ⟨idxs, ?_, ?_, ?_, h4⟩
      · simp only [greedyClusterSelect]
        rw [if_pos hc]
        exact h1
      · exact fun j hj => List.mem_cons_of_mem i (h2 j hj)
      · exact fun j hj hs => h3 j hj (List.mem_cons_of_mem _ hs)
    · refine ⟨i :: idxs, ?_, ?_, ?_, ?_⟩
      · simp only [greedyClusterSelect, List.map_cons]
        rw [if_neg hc]
        exact congrArg (List.cons (pids.getD i "")) h1
      · intro j hj
        rcases List.mem_cons.mp hj with hj | hj
        · rw [hj]; exact List.mem_cons_self i rest
        · exact List.mem_cons_of_mem i (h2 j hj)
      · intro j hj
        rcases List.mem_cons.mp hj with hj | hj
        · rw [hj]; exact hc
        · exact fun hs => h3 j hj (List.mem_cons_of_mem _ hs)
      · rw [List.map_cons, List.nodup_cons]
        refine ⟨?_, h4⟩
        intro hcmem
        obtain ⟨j, hj, hjc⟩ := List.mem_map.mp hcmem
        exact h3 j hj (hjc ▸ List.mem_cons_self _ seen)

theorem zeroShotClusterRank_labels_nodup {m2 : ZeroShotClusterKNN}
    {kmeans : KMeansFn} {cid : ℤ} {pids : List String} {k : ℕ} {res : List String}
    {cr : Vec} {reprs : List Vec} {assignment : List ℕ} {centroids : List Vec}
    (hnd : pids.Nodup) (hc : m2.claims cid = some cr)
    (hp : lookupAll m2.premises pids = .ok reprs)
    (hkm : kmeans (numClusters m2.rho pids.length k).toNat reprs =
      (assignment, centroids))
    (hlen : assignment.length = pids.length)
    (h : m2.rank kmeans cid pids k = .ok res) :
    (res.map (clusterLabelOf assignment pids)).Nodup := by
  simp only [ZeroShotClusterKNN.rank, hc, hp, hkm] at h
  cases hg : getClusterRepresentatives m2.similarity m2.cluster_representative cr
      reprs assignment centroids with
  | error e => rw [hg] at h; exact absurd h (by simp)
  | ok cri =>
    rw [hg] at h
    exact rankFromRepresentatives_labels_nodup hnd hlen
      (getClusterRepresentatives_mem hg) (getClusterRepresentatives_pairwise hg) h

theorem learnedClusterRank_labels_nodup {m4 : LearnedSimilarityClusterKNN}
    {kmeans : KMeansFn} {cid : ℤ} {pids : List String} {k : ℕ} {res : List String}
    {reprs : List Vec} {assignment : List ℕ}
    (hnd : pids.Nodup)
    (hp : lookupAll m4.premises pids = .ok reprs)
    (hkm : (kmeans (numClusters m4.rho pids.length k).toNat reprs).1 = assignment)
    (h : m4.rank kmeans cid pids k = .ok res) :
    (res.map (clusterLabelOf assignment pids)).Nodup := by
  simp only [LearnedSimilarityClusterKNN.rank, hp, hkm] at h
  cases hs : lookupAll m4.precomputed_similarities pids with
  | error e => rw [hs] at h; exact absurd h (by simp)
  | ok svals =>
    rw [hs] at h
    simp only [Except.ok.injEq] at h
    obtain ⟨idxs, h1, h2, h3, h4⟩ := greedyClusterSelect_spec assignment pids
      (sortDescBy (fun i => (m4.precomputed_similarities (pids.getD i "")).getD 0)
        (List.range pids.length)) []
    have hidmem : ∀ i ∈ idxs, i < pids.length := by
      intro i hi
      have := (sortDescBy_perm (fun i =>
        (m4.precomputed_similarities (pids.getD i "")).getD 0)
        (List.range pids.length)).mem_iff.mp (h2 i hi)
      exact List.mem_range.mp this
    have hres : res = (idxs.take k).map (fun i => pids.getD i "") := by
      rw [← h, h1, List.map_take]
    have hmaps : res.map (clusterLabelOf assignment pids) =
        (idxs.take k).map (fun i => assignment.getD i 0) := by
      rw [hres, List.map_map]
      refine List.map_congr_left ?_
      intro i hi
      have himem : i ∈ idxs := (List.take_sublist k idxs).mem hi
      simp only [Function.comp]
      exact clusterLabelOf_getD hnd (hidmem i himem)
    rw [hmaps, List.map_take]
    exact (List.take_sublist k _).nodup h4

/-! ### Shared concrete fixtures used by witnesses and counterexamples -/

/-- A concrete similarity that scores a premise by its first coordinate. -/
def exSimFn : Vec → Vec → ℚ := fun _ b => b.headD 0

/-- A concrete claim representation store. -/
def exClaims : ℤ → Option Vec := fun _ => some [2]

/-- A concrete premise representation store over four premises. -/
def exPremises : String → Option Vec := fun pid =>
  if pid = "a" then some [1] else if pid = "b" then some [9]
  else if pid = "c" then some [3] else if pid = "d" then some [11] else none

/-- A concrete deterministic clustering outcome: premises alternate between
two clusters. -/
def exKMeans : KMeansFn := fun _ _ => ([0, 1, 0, 1], [[2], [10]])

/-- A concrete precomputed-similarity store over four premises. -/
def exScores : String → Option ℚ := fun pid =>
  if pid = "a" then some 1 else if pid = "b" then some 4
  else if pid = "c" then some 3 else if pid = "d" then some 2 else none

/-! ### C1: the rank contract -/

/-- The predicted relevance of a premise identifier for `ZeroShotKNN`:
similarity of the claim representation to the stored premise representation. -/
def premiseScore (m : ZeroShotKNN) (claim_repr : Vec) (pid : String) : ℚ :=
  m.similarity claim_repr ((m.premises pid).getD [])

/-- C1 (amended): with unique premise identifiers and all representations
present, `ZeroShotKNN.rank` satisfies the contract whenever `k` does not
exceed the pool size (length `min k n`, drawn from the pool, duplicate-free,
ordered by decreasing predicted relevance); `LearnedSimilarityKNN.rank`
satisfies it for every `k`, truncating gracefully.  When `k` exceeds the pool
size, `ZeroShotKNN.rank` raises the top-k error instead of truncating (see
the counterexample). -/
theorem C1_rank_contract (m1 : ZeroShotKNN) (m3 : LearnedSimilarityKNN)
    (cid : ℤ) (pids : List String) (k : ℕ) (cr : Vec) (reprs : List Vec)
    (hnd : pids.Nodup) (hc : m1.claims cid = some cr)
    (hp : lookupAll m1.premises pids = .ok reprs)
    (hall : ∀ pid ∈ pids, (m3.precomputed_similarities pid).isSome) :
    (k ≤ pids.length →
      ∃ res, m1.rank cid pids k = .ok res ∧ res.length = min k pids.length ∧
        (∀ p ∈ res, p ∈ pids) ∧ res.Nodup ∧
        (res.map (premiseScore m1 cr)).Pairwise (fun a b => b ≤ a)) ∧
    (∃ res, m3.rank cid pids k = .ok res ∧ res.length = min k pids.length ∧
      (∀ p ∈ res, p ∈ pids) ∧ res.Nodup ∧
      (res.map (fun pid => (m3.precomputed_similarities pid).getD 0)).Pairwise
        (fun a b => b ≤ a)) := by
  constructor
  · intro hk
    have hrl : reprs.length = pids.length := lookupAll_ok_length hp
    have hsl : (reprs.map (m1.similarity cr)).length = pids.length := by
      simp [hrl]
    have hkk : k ≤ (reprs.map (m1.similarity cr)).length := hsl ▸ hk
    have ht := topkIndices_ok_of_le hkk
    obtain ⟨hlen, hnodup, hmem, hpw⟩ := topkIndices_spec ht
    set t := (sortDescBy (fun i => (reprs.map (m1.similarity cr)).getD i 0)
      (List.range (reprs.map (m1.similarity cr)).length)).take k with htdef
    have hmem2 : ∀ i ∈ t, i < pids.length := by
      intro i hi
      exact hsl ▸ hmem i hi
    refine ⟨t.map (fun i => pids.getD i ""), ?_, ?_, ?_, ?_, ?_⟩
    · simp only [ZeroShotKNN.rank, hc, hp, ht]
    · rw [List.length_map, hlen, hsl]
    · intro p hp2
      obtain ⟨i, hi, hip⟩ := List.mem_map.mp hp2
      rw [← hip]
      exact getD_mem (hmem2 i hi) ""
    · refine List.Nodup.map_on ?_ hnodup
      intro x hx y hy hxy
      have hx2 := hmem2 x hx
      have hy2 := hmem2 y hy
      rw [List.getD_eq_getElem _ _ hx2, List.getD_eq_getElem _ _ hy2] at hxy
      exact (List.Nodup.getElem_inj_iff hnd).mp hxy
    · rw [List.map_map]
      have heq : ∀ i ∈ t, (premiseScore m1 cr ∘ (fun i => pids.getD i "")) i =
          (reprs.map (m1.similarity cr)).getD i 0 := by
        intro i hi
        have hi2 := hmem2 i hi
        have hstore := lookupAll_ok_getD [] hp i hi2
        simp only [Function.comp, premiseScore, hstore, Option.getD_some]
        rw [getD_map_of_lt (m1.similarity cr) (hrl ▸ hi2) 0 []]
      rw [List.map_congr_left heq]
      exact List.pairwise_map.mpr hpw
  · obtain ⟨vs, hvs⟩ := lookupAll_ok_of_forall_isSome hall
    have hperm := sortDescBy_perm
      (fun pid => (m3.precomputed_similarities pid).getD 0) pids
    refine ⟨(sortDescBy (fun pid => (m3.precomputed_similarities pid).getD 0)
      pids).take k, ?_, ?_, ?_, ?_, ?_⟩
    · simp only [LearnedSimilarityKNN.rank, hvs]
    · rw [List.length_take, hperm.length_eq]
    · intro p hp2
      exact hperm.mem_iff.mp ((List.take_sublist k _).mem hp2)
    · exact (List.take_sublist k _).nodup (hperm.nodup_iff.mpr hnd)
    · refine List.pairwise_map.mpr ?_
      exact List.Pairwise.sublist (List.take_sublist k _)
        (sortDescBy_pairwise (fun pid => (m3.precomputed_similarities pid).getD 0) pids)

/-- C1 counterexample: a concrete `ZeroShotKNN` call with a single candidate
premise and `k = 2` raises the top-k error instead of returning the single
available premise, refuting the graceful-truncation part of the claim. -/
theorem C1_counterexample :
    (ZeroShotKNN.mk exSimFn exClaims exPremises).rank 0 ["a"] 2 =
      .error .topkOutOfRange := rfl

/-- C1 witness: the amended contract on a concrete three-premise pool, with
`k = 2 ≤ 3` for `ZeroShotKNN` and the graceful-truncation case `k = 5 > 3`
for `LearnedSimilarityKNN` (result length `min 5 3 = 3`). -/
theorem C1_witness :
    (∃ res, (ZeroShotKNN.mk exSimFn exClaims exPremises).rank 0 ["a", "b", "c"] 2 =
        .ok res ∧
      res.length = min 2 (["a", "b", "c"] : List String).length ∧
      (∀ p ∈ res, p ∈ (["a", "b", "c"] : List String)) ∧ res.Nodup ∧
      (res.map (premiseScore (ZeroShotKNN.mk exSimFn exClaims exPremises) [2])).Pairwise
        (fun a b => b ≤ a)) ∧
    (∃ res, (LearnedSimilarityKNN.mk exScores).rank 0 ["a", "b", "c"] 5 = .ok res ∧
      res.length = min 5 (["a", "b", "c"] : List String).length ∧
      (∀ p ∈ res, p ∈ (["a", "b", "c"] : List String)) ∧ res.Nodup ∧
      (res.map (fun pid => ((LearnedSimilarityKNN.mk exScores).precomputed_similarities
        pid).getD 0)).Pairwise (fun a b => b ≤ a)) :=
  ⟨(C1_rank_contract (ZeroShotKNN.mk exSimFn exClaims exPremises)
      (LearnedSimilarityKNN.mk exScores) 0 ["a", "b", "c"] 2 [2] [[1], [9], [3]]
      (by decide) rfl rfl (by decide)).1 (by decide),
   (C1_rank_contract (ZeroShotKNN.mk exSimFn exClaims exPremises)
      (LearnedSimilarityKNN.mk exScores) 0 ["a", "b", "c"] 5 [2] [[1], [9], [3]]
      (by decide) rfl rfl (by decide)).2⟩

/-! ### C2: at most one premise per cluster -/

/-- C2: for both cluster-based methods, any successfully returned ranking
contains at most one premise per cluster of the assignment computed for that
call: mapping the returned premise identifiers to their cluster labels yields
a duplicate-free list. -/
theorem C2_one_premise_per_cluster (m2 : ZeroShotClusterKNN)
    (m4 : LearnedSimilarityClusterKNN) (kmeans : KMeansFn) (cid : ℤ)
    (pids : List String) (k : ℕ) (cr : Vec) (reprs2 reprs4 : List Vec)
    (assignment2 : List ℕ) (centroids2 : List Vec) (assignment4 : List ℕ)
    (hnd : pids.Nodup) (hc : m2.claims cid = some cr)
    (hp2 : lookupAll m2.premises pids = .ok reprs2)
    (hkm2 : kmeans (numClusters m2.rho pids.length k).toNat reprs2 =
      (assignment2, centroids2))
    (hlen2 : assignment2.length = pids.length)
    (hp4 : lookupAll m4.premises pids = .ok reprs4)
    (hkm4 : (kmeans (numClusters m4.rho pids.length k).toNat reprs4).1 = assignment4) :
    (∀ res, m2.rank kmeans cid pids k = .ok res →
      (res.map (clusterLabelOf assignment2 pids)).Nodup) ∧
    (∀ res, m4.rank kmeans cid pids k = .ok res →
      (res.map (clusterLabelOf assignment4 pids)).Nodup) :=
  ⟨fun _ h => zeroShotClusterRank_labels_nodup hnd hc hp2 hkm2 hlen2 h,
   fun _ h => learnedClusterRank_labels_nodup hnd hp4 hkm4 h⟩

/-- C2 witness: a concrete four-premise pool split into two clusters; both
methods return two premises with distinct cluster labels. -/
theorem C2_witness :
    ((["d", "c"] : List String).map
      (clusterLabelOf [0, 1, 0, 1] ["a", "b", "c", "d"])).Nodup ∧
    ((["b", "c"] : List String).map
      (clusterLabelOf [0, 1, 0, 1] ["a", "b", "c", "d"])).Nodup := by
  have h := C2_one_premise_per_cluster
    (mkZeroShotClusterKNN exSimFn exClaims exPremises 1 "closest-to-claim")
    (LearnedSimilarityClusterKNN.mk exScores 1 exPremises) exKMeans 0
    ["a", "b", "c", "d"] 2 [2] [[1], [9], [3], [11]] [[1], [9], [3], [11]]
    [0, 1, 0, 1] [[2], [10]] [0, 1, 0, 1]
    (by decide) rfl rfl rfl rfl rfl rfl
  exact ⟨h.1 ["d", "c"] rfl, h.2 ["b", "c"] rfl⟩

/-! ### C9: missing premise identifiers propagate a key-not-found error -/

/-- C9: whenever the candidate pool contains a premise identifier that is
absent from the premise representation store, `rank` fails with a
key-not-found error for a missing identifier of the pool (the lookups happen
before any ranking, so no partial ranking is returned), for `ZeroShotKNN`,
`ZeroShotClusterKNN` and `LearnedSimilarityClusterKNN` alike. -/
theorem C9_missing_premise_errors (m1 : ZeroShotKNN) (m2 : ZeroShotClusterKNN)
    (m4 : LearnedSimilarityClusterKNN) (kmeans : KMeansFn) (cid : ℤ)
    (pids : List String) (k : ℕ) (pid : String) (cr1 cr2 : Vec)
    (hc1 : m1.claims cid = some cr1) (hc2 : m2.claims cid = some cr2)
    (hmem : pid ∈ pids) (h1 : m1.premises pid = none)
    (h2 : m2.premises pid = none) (h4 : m4.premises pid = none) :
    (∃ q, q ∈ pids ∧ m1.premises q = none ∧
      m1.rank cid pids k = .error (.keyNotFound q)) ∧
    (∃ q, q ∈ pids ∧ m2.premises q = none ∧
      m2.rank kmeans cid pids k = .error (.keyNotFound q)) ∧
    (∃ q, q ∈ pids ∧ m4.premises q = none ∧
      m4.rank kmeans cid pids k = .error (.keyNotFound q)) := by
  obtain ⟨q1, hq1a, hq1b, hq1c⟩ := lookupAll_error_of_missing hmem h1
  obtain ⟨q2, hq2a, hq2b, hq2c⟩ := lookupAll_error_of_missing hmem h2
  obtain ⟨q4, hq4a, hq4b, hq4c⟩ := lookupAll_error_of_missing hmem h4
  refine ⟨⟨q1, hq1a, hq1b, ?_⟩, ⟨q2, hq2a, hq2b, ?_⟩, ⟨q4, hq4a, hq4b, ?_⟩⟩
  · simp [ZeroShotKNN.rank, hc1, hq1c]
  · simp [ZeroShotClusterKNN.rank, hc2, hq2c]
  · simp [LearnedSimilarityClusterKNN.rank, hq4c]

/-- C9 witness: with the identifier `"z"` absent from the concrete premise
store, all three methods fail with a key-not-found error. -/
theorem C9_witness :
    (∃ q, q ∈ ["a", "z"] ∧ exPremises q = none ∧
      (ZeroShotKNN.mk exSimFn exClaims exPremises).rank 0 ["a", "z"] 1 =
        .error (.keyNotFound q)) ∧
    (∃ q, q ∈ ["a", "z"] ∧ exPremises q = none ∧
      (mkZeroShotClusterKNN exSimFn exClaims exPremises 1 "closest-to-center").rank
        exKMeans 0 ["a", "z"] 1 = .error (.keyNotFound q)) ∧
    (∃ q, q ∈ ["a", "z"] ∧ exPremises q = none ∧
      (LearnedSimilarityClusterKNN.mk exScores 1 exPremises).rank
        exKMeans 0 ["a", "z"] 1 = .error (.keyNotFound q)) :=
  C9_missing_premise_errors (ZeroShotKNN.mk exSimFn exClaims exPremises)
    (mkZeroShotClusterKNN exSimFn exClaims exPremises 1 "closest-to-center")
    (LearnedSimilarityClusterKNN.mk exScores 1 exPremises) exKMeans 0
    ["a", "z"] 1 "z" [2] [2] rfl rfl (by simp) rfl rfl rfl

/-! ### C8: invalid cluster-representative mode -/

/-- C8: construction with an arbitrary mode string succeeds (the constructor
stores it unvalidated), and for a mode outside
`{closest-to-center, closest-to-claim}` the not-implemented error surfaces on
the first `rank` call, as soon as at least one cluster is produced. -/
theorem C8_invalid_mode_errors_at_rank (simFn : Vec → Vec → ℚ)
    (claims : ℤ → Option Vec) (premises : String → Option Vec) (rho : ℚ)
    (mode : String) (kmeans : KMeansFn) (cid : ℤ) (pids : List String) (k : ℕ)
    (cr : Vec) (reprs : List Vec)
    (hmode1 : mode ≠ "closest-to-center") (hmode2 : mode ≠ "closest-to-claim")
    (hc : claims cid = some cr) (hp : lookupAll premises pids = .ok reprs)
    (hcent : (kmeans (numClusters rho pids.length k).toNat reprs).2 ≠ []) :
    (mkZeroShotClusterKNN simFn claims premises rho mode).cluster_representative =
      mode ∧
    (mkZeroShotClusterKNN simFn claims premises rho mode).rank kmeans cid pids k =
      .error (.notImplemented mode) := by
  refine ⟨rfl, ?_⟩
  simp only [ZeroShotClusterKNN.rank, mkZeroShotClusterKNN, hc, hp]
  obtain ⟨n, hn⟩ := Nat.exists_eq_succ_of_ne_zero
    (fun hz => hcent (List.length_eq_zero.mp hz) :
      (kmeans (numClusters rho pids.length k).toNat reprs).2.length ≠ 0)
  rw [getClusterRepresentatives, hn, List.range_succ_eq_map,
    exceptMapList_error_head]
  rw [reprForCluster]
  rw [if_neg hmode1, if_neg hmode2]

/-- C8 witness: the mode string `"medoid"` is stored by the constructor and
rejected with a not-implemented error on the first `rank` call. -/
theorem C8_witness :
    (mkZeroShotClusterKNN exSimFn exClaims exPremises 1 "medoid").cluster_representative =
      "medoid" ∧
    (mkZeroShotClusterKNN exSimFn exClaims exPremises 1 "medoid").rank
      exKMeans 0 ["a", "b"] 1 = .error (.notImplemented "medoid") :=
  C8_invalid_mode_errors_at_rank exSimFn exClaims exPremises 1 "medoid" exKMeans 0
    ["a", "b"] 1 [2] [[1], [9]] (by decide) (by decide) rfl rfl (by decide)

/-! ### C5: behaviour when every cluster is empty -/

/-- C5 (amended): if the clustering step assigns no premise to any cluster
(every cluster is empty), `ZeroShotClusterKNN.rank` does not return an empty
ranking: the representative list is all `-1`, the non-empty selection is
empty, and the final top-`k` (with `k > 0`) on an empty candidate set raises
the top-k out-of-range error. -/
theorem C5_all_clusters_empty_errors (m : ZeroShotClusterKNN) (kmeans : KMeansFn)
    (cid : ℤ) (pids : List String) (k : ℕ) (cr : Vec) (reprs : List Vec)
    (assignment : List ℕ) (centroids : List Vec)
    (hmode : m.cluster_representative = "closest-to-center")
    (hc : m.claims cid = some cr) (hp : lookupAll m.premises pids = .ok reprs)
    (hkm : kmeans (numClusters m.rho pids.length k).toNat reprs =
      (assignment, centroids))
    (hk : 0 < k)
    (hempty : ∀ i, i < centroids.length → maskIndices assignment i = []) :
    m.rank kmeans cid pids k = .error .topkOutOfRange := by
  simp only [ZeroShotClusterKNN.rank, hc, hp, hkm]
  have hg : getClusterRepresentatives m.similarity m.cluster_representative cr
      reprs assignment centroids = .ok ((List.range centroids.length).map
        (fun _ => (-1 : ℤ))) := by
    rw [getClusterRepresentatives]
    refine exceptMapList_ok_of_forall ?_
    intro i hi
    rw [reprForCluster, if_pos hmode]
    have hm : (maskIndices assignment i).isEmpty = true := by
      rw [hempty i (List.mem_range.mp hi)]
      rfl
    simp [hm]
  rw [hg]
  have hfilter : ((List.range centroids.length).map (fun _ => (-1 : ℤ))).filter
      (fun x => decide (0 ≤ x)) = [] := by
    rw [List.filter_eq_nil_iff]
    intro x hx
    obtain ⟨_, _, hv⟩ := List.mem_map.mp hx
    rw [← hv]
    simp
  simp only [rankFromRepresentatives, hfilter, List.map_nil]
  rw [topkIndices_error_of_gt (by simpa using hk)]

/-- C5 counterexample: a concrete call in which the (degenerate) clustering
outcome leaves every cluster empty; `rank` returns the top-k error, not the
empty ranking the claim promises. -/
theorem C5_counterexample :
    (mkZeroShotClusterKNN exSimFn exClaims exPremises 1 "closest-to-center").rank
      (fun _ _ => ([1], [[5]])) 0 ["a"] 1 = .error .topkOutOfRange := rfl

/-- C5 witness: the amended theorem applies to the concrete degenerate call
of the counterexample. -/
theorem C5_witness :
    (mkZeroShotClusterKNN exSimFn exClaims exPremises 1 "closest-to-center").rank
      (fun _ _ => ([1], [[5]])) 0 ["a"] 2 = .error .topkOutOfRange :=
  C5_all_clusters_empty_errors
    (mkZeroShotClusterKNN exSimFn exClaims exPremises 1 "closest-to-center")
    (fun _ _ => ([1], [[5]])) 0 ["a"] 2 [2] [[1]] [1] [[5]]
    rfl rfl rfl rfl (by decide)
    (by
      intro i hi
      rw [show ([[5]] : List Vec).length = 1 from rfl] at hi
      rw [Nat.lt_one_iff.mp hi]
      rfl)

/-! ### C3: cluster count -/

/-- C3 (amended): `_num_clusters` returns exactly
`min (max (round (rho * num_premises)) k) num_premises`; this is always at
most `num_premises`, and it is at least `k` whenever `k ≤ num_premises` (when
`k > num_premises` the cap wins and the result is `num_premises < k`). -/
theorem C3_numClusters_clamp (rho : ℚ) (n k : ℕ) :
    numClusters rho n k = min (max (pyRound (rho * n)) (k : ℤ)) (n : ℤ) ∧
    numClusters rho n k ≤ (n : ℤ) ∧
    (k ≤ n → (k : ℤ) ≤ numClusters rho n k) := by
  refine ⟨rfl, min_le_right _ _, ?_⟩
  intro h
  exact le_min (le_max_right _ _) (by exact_mod_cast h)

/-- C3 witness: at `rho = 1/2`, `num_premises = 4`, `k = 2` the clamp
evaluates as stated and the lower bound `k` holds. -/
theorem C3_witness :
    numClusters (1 / 2) 4 2 = min (max (pyRound ((1 / 2) * (4 : ℕ))) ((2 : ℕ) : ℤ)) ((4 : ℕ) : ℤ) ∧
    numClusters (1 / 2) 4 2 ≤ ((4 : ℕ) : ℤ) ∧ ((2 : ℕ) : ℤ) ≤ numClusters (1 / 2) 4 2 := by
  obtain ⟨h1, h2, h3⟩ := C3_numClusters_clamp (1 / 2) 4 2
  exact ⟨h1, h2, h3 (by decide)⟩

/-- C3 counterexample: with `rho = 0`, one premise and `k = 2`, the cluster
count is `1 < k`, refuting "it is at least k" for every `k`. -/
theorem C3_counterexample : numClusters 0 1 2 < ((2 : ℕ) : ℤ) := by
  have h : pyRound ((0 : ℚ) * ((1 : ℕ) : ℚ)) = 0 := by norm_num [pyRound]
  rw [numClusters, h]
  norm_num

/-! ### C4: CSLS normalization -/

/-- The `k` largest values of a list, modelling `tensor.topk(k, largest=True)`
values for a single axis slice; like `torch.topk` it fails when `k` exceeds
the number of entries. -/
def topkVals (l : List ℚ) (k : ℕ) : Option (List ℚ) :=
  if k ≤ l.length then some ((sortDescBy id l).take k) else none

/-- `_mean_top_sim` restricted to one axis slice: mean of the top-`k`
values. -/
def meanTop (l : List ℚ) (k : ℕ) : Option ℚ :=
  (topkVals l k).map (fun t => t.sum / (k : ℚ))

/-- The total value of `meanTop` in the in-range case. -/
def meanTopVal (l : List ℚ) (k : ℕ) : ℚ := ((sortDescBy id l).take k).sum / (k : ℚ)

/-- Number of columns of a row-major matrix. -/
def numCols (S : List (List ℚ)) : ℕ := (S.headD []).length

/-- Column `j` of a row-major matrix. -/
def colOf (S : List (List ℚ)) (j : ℕ) : List ℚ := S.map (fun r => r.getD j 0)

/-- `_mean_top_sim(sim, k, dim=0)`: per-column mean of the column's top-`k`
values (a row vector, broadcast over rows). -/
def meanTopDim0 (S : List (List ℚ)) (k : ℕ) : Option (List ℚ) :=
  optionMapList (fun j => meanTop (colOf S j) k) (List.range (numCols S))

/-- `_mean_top_sim(sim, k, dim=1)`: per-row mean of the row's top-`k` values
(a column vector, broadcast over columns). -/
def meanTopDim1 (S : List (List ℚ)) (k : ℕ) : Option (List ℚ) :=
  optionMapList (fun r => meanTop r k) S

/-- `CSLSSimilarity.sim` applied to a base similarity matrix:
`(2 * sim) - mean_top_dim0 - mean_top_dim1` with broadcasting. -/
def cslsSim (S : List (List ℚ)) (k : ℕ) : Option (List (List ℚ)) :=
  match meanTopDim0 S k, meanTopDim1 S k with
  | some colCorr, some rowCorr =>
    some (List.zipWith
      (fun row rc => List.zipWith (fun s cc => 2 * s - cc - rc) row colCorr)
      S rowCorr)
  | _, _ => none

theorem meanTop_of_le {l : List ℚ} {k : ℕ} (h : k ≤ l.length) :
    meanTop l k = some (meanTopVal l k) := by
  simp [meanTop, topkVals, meanTopVal, h]

/-- C4: on a rectangular base similarity matrix with both dimensions at least
`k`, CSLS succeeds and every entry satisfies
`CSLS[i,j] = 2*S[i,j] - mean(top_k(S[i,:])) - mean(top_k(S[:,j]))`. -/
theorem C4_csls_formula (S : List (List ℚ)) (k : ℕ)
    (hrect : ∀ r ∈ S, r.length = numCols S)
    (hkr : k ≤ S.length) (hkc : k ≤ numCols S) :
    ∃ C, cslsSim S k = some C ∧ C.length = S.length ∧
      ∀ i j, i < S.length → j < numCols S →
        (C.getD i []).getD j 0 =
          2 * ((S.getD i []).getD j 0) - meanTopVal (S.getD i []) k -
            meanTopVal (colOf S j) k := by
  have h0 : meanTopDim0 S k = some ((List.range (numCols S)).map
      (fun j => meanTopVal (colOf S j) k)) := by
    refine optionMapList_ok_of_forall ?_
    intro j _
    refine meanTop_of_le ?_
    rw [colOf, List.length_map]
    exact hkr
  have h1 : meanTopDim1 S k = some (S.map (fun r => meanTopVal r k)) := by
    refine optionMapList_ok_of_forall ?_
    intro r hr
    exact meanTop_of_le ((hrect r hr).symm ▸ hkc)
  refine ⟨_, by rw [cslsSim, h0, h1], ?_, ?_⟩
  · rw [List.length_zipWith, List.length_map, min_self]
  · intro i j hi hj
    have hrc : i < (S.map (fun r => meanTopVal r k)).length := by
      rw [List.length_map]; exact hi
    have hrow : (S.getD i []).length = numCols S := hrect _ (getD_mem hi [])
    have hcc : j < ((List.range (numCols S)).map
        (fun j => meanTopVal (colOf S j) k)).length := by
      rw [List.length_map, List.length_range]; exact hj
    rw [getD_zipWith_of_lt hi hrc [] [] 0]
    rw [getD_zipWith_of_lt (hrow ▸ hj) hcc 0 0 0]
    rw [getD_map_of_lt (fun r => meanTopVal r k) hi 0 []]
    rw [getD_map_of_lt (fun j => meanTopVal (colOf S j) k)
      (by rw [List.length_range]; exact hj) 0 0]
    rw [getD_range_of_lt hj 0]
    ring

/-- C4 witness: the identity-like fixture `S = [[1,0],[0,1]]` with `k = 1`. -/
theorem C4_witness :
    ∃ C, cslsSim [[1, 0], [0, 1]] 1 = some C ∧
      C.length = ([[1, 0], [0, 1]] : List (List ℚ)).length ∧
      ∀ i j, i < ([[1, 0], [0, 1]] : List (List ℚ)).length →
        j < numCols [[1, 0], [0, 1]] →
        (C.getD i []).getD j 0 =
          2 * ((([[1, 0], [0, 1]] : List (List ℚ)).getD i []).getD j 0) -
            meanTopVal (([[1, 0], [0, 1]] : List (List ℚ)).getD i []) 1 -
            meanTopVal (colOf [[1, 0], [0, 1]] j) 1 :=
  C4_csls_formula [[1, 0], [0, 1]] 1 (by decide) (by decide) (by decide)

/-! ### C7: Lp similarity, over the reals -/

/-- The Lp distance of two vectors, translating `torch.cdist` for a single
pair: `(Σ |a_i - b_i| ^ p) ^ (1 / p)`. -/
noncomputable def lpDist (p : ℝ) (x y : List ℝ) : ℝ :=
  ((List.zipWith (fun a b => |a - b| ^ p) x y).sum) ^ (1 / p)

/-- `LpSimilarity.sim` for a single pair: `1 / (1 + lpDist)`. -/
noncomputable def lpSim (p : ℝ) (x y : List ℝ) : ℝ := 1 / (1 + lpDist p x y)

theorem mem_zipWith_exists {f : α → β → γ} :
    ∀ {x : List α} {y : List β} {c : γ}, c ∈ List.zipWith f x y →
      ∃ u v, c = f u v := by
  intro x
  induction x with
  | nil => intro y c h; simp at h
  | cons a as ih =>
    intro y c h
    cases y with
    | nil => simp at h
    | cons b bs =>
      rcases List.mem_cons.mp h with h | h
      · exact ⟨a, b, h⟩
      · exact ih h

theorem lpDist_nonneg (p : ℝ) (x y : List ℝ) : 0 ≤ lpDist p x y := by
  apply Real.rpow_nonneg
  apply List.sum_nonneg
  intro a ha
  obtain ⟨u, v, rfl⟩ := mem_zipWith_exists ha
  exact Real.rpow_nonneg (abs_nonneg _) p

/-- C7: the Lp similarity `1 / (1 + lpDist)` always lies in `(0, 1]`, and it
equals `1` exactly when the Lp distance is `0`. -/
theorem C7_lp_similarity (p : ℝ) (x y : List ℝ) :
    0 < lpSim p x y ∧ lpSim p x y ≤ 1 ∧ (lpSim p x y = 1 ↔ lpDist p x y = 0) := by
  have hd := lpDist_nonneg p x y
  have hpos : 0 < 1 + lpDist p x y := by linarith
  refine ⟨one_div_pos.mpr hpos, ?_, ?_⟩
  · rw [lpSim, div_le_one hpos]
    linarith
  · rw [lpSim, div_eq_one_iff_eq (ne_of_gt hpos)]
    constructor
    · intro h; linarith
    · intro h; rw [h]; ring

/-! ### C10: the learned-similarity ranking ignores the claim identifier -/

/-- C10: `LearnedSimilarityKNN.rank` looks scores up by premise identifier
alone, so its output is the same for any two claim identifiers. -/
theorem C10_rank_ignores_claim_id (m : LearnedSimilarityKNN) (c1 c2 : ℤ)
    (premise_ids : List String) (k : ℕ) :
    m.rank c1 premise_ids k = m.rank c2 premise_ids k := rfl

/-! ### C6: determinism / idempotence of rank -/

/-- C6: with the seeded k-means collaborator modelled as a deterministic
function, every ranking method is a pure function of its inputs: two `rank`
calls on identical inputs return identical outputs, for all four methods. -/
theorem C6_rank_deterministic (m1 : ZeroShotKNN) (m2 : ZeroShotClusterKNN)
    (m3 : LearnedSimilarityKNN) (m4 : LearnedSimilarityClusterKNN)
    (kmeans : KMeansFn) (cid cid2 : ℤ) (pids pids2 : List String) (k k2 : ℕ)
    (h1 : cid = cid2) (h2 : pids = pids2) (h3 : k = k2) :
    m1.rank cid pids k = m1.rank cid2 pids2 k2 ∧
    m2.rank kmeans cid pids k = m2.rank kmeans cid2 pids2 k2 ∧
    m3.rank cid pids k = m3.rank cid2 pids2 k2 ∧
    m4.rank kmeans cid pids k = m4.rank kmeans cid2 pids2 k2 := by
  subst h1; subst h2; subst h3
  exact ⟨rfl, rfl, rfl, rfl⟩

/-- C6 witness: repeated calls on a concrete configuration agree. -/
theorem C6_witness :
    (ZeroShotKNN.mk exSimFn exClaims exPremises).rank 0 ["a", "b"] 1 =
      (ZeroShotKNN.mk exSimFn exClaims exPremises).rank 0 ["a", "b"] 1 ∧
    (mkZeroShotClusterKNN exSimFn exClaims exPremises 1 "closest-to-center").rank
        exKMeans 0 ["a", "b"] 1 =
      (mkZeroShotClusterKNN exSimFn exClaims exPremises 1 "closest-to-center").rank
        exKMeans 0 ["a", "b"] 1 ∧
    (LearnedSimilarityKNN.mk exScores).rank 0 ["a", "b"] 1 =
      (LearnedSimilarityKNN.mk exScores).rank 0 ["a", "b"] 1 ∧
    (LearnedSimilarityClusterKNN.mk exScores 1 exPremises).rank exKMeans 0 ["a", "b"] 1 =
      (LearnedSimilarityClusterKNN.mk exScores 1 exPremises).rank exKMeans 0 ["a", "b"] 1 :=
  C6_rank_deterministic _ _ _ _ exKMeans 0 0 ["a", "b"] ["a", "b"] 1 1 rfl rfl rfl

end Arclus
